import Mathlib

/-!
# Verification of the `rpi_metar` METAR-retrieval layer

A shallow embedding of `src/rpi_metar/sources.py` (the multi-source METAR
retrieval and normalization layer) together with proofs and refutations of
the specification's claims about it.

Modelling conventions:

* A Python `str` is modelled as `PyStr := List Nat`, the list of its
  character code points; `chars` converts a Lean string literal.  Python's
  `str.upper` is modelled by `upper` (faithful on the ASCII range, which is
  the range airport codes and METAR markup live in).
* Python `dict` insertion (`d[k] = v`, last write wins, insertion order
  kept) is modelled by `dictInsert` on association lists.
* Network responses are oracle parameters: each adapter's `get_metar_info`
  takes the provider's (parsed or raw) response as an explicit argument,
  and fallible steps return `Except`/`Option`.
* `re.finditer` over the two METAR-extraction regexes of `sources.py`
  (which differ only in their boundary-marker alternation) is embedded as
  a character-level matcher `finditer`, with Python's `.` not matching
  a newline and `\w` modelled on the ASCII range.
-/

set_option maxHeartbeats 1000000
set_option maxRecDepth 100000

namespace RpiMetar

/-- A Python string as its list of character code points. -/
abbrev PyStr := List Nat

/-- Code points of a Lean string literal, for embedding Python literals. -/
def chars (s : String) : PyStr := s.toList.map Char.toNat

/-- ASCII upper-casing of one code point, as Python `str.upper` acts on the
ASCII range. -/
def upChar (n : Nat) : Nat := if 97 ≤ n ∧ n ≤ 122 then n - 32 else n

/-- Python `str.upper`, faithful on ASCII strings. -/
def upper (s : PyStr) : PyStr := s.map upChar

/-- Python `sep.join(xs)`. -/
def joinWith (sep : PyStr) : List PyStr → PyStr
  | [] => []
  | [x] => x
  | x :: y :: rest => x ++ sep ++ joinWith sep (y :: rest)

/-- Python dict assignment `m[k] = v`: overwrite in place if the key is
present, else append (insertion order preserved, last write wins). -/
def dictInsert {V : Type} (m : List (PyStr × V)) (k : PyStr) (v : V) :
    List (PyStr × V) :=
  if (m.map Prod.fst).contains k then
    m.map (fun p => if p.1 = k then (k, v) else p)
  else m ++ [(k, v)]

/-- Helper for `chunks`: one loop iteration of
`for i in range(0, len(l), n): yield l[i:i+n]`, driven by a fuel bound
(the fuel is the original length, which dominates the iteration count). -/
def chunksGo {α : Type} (n : Nat) : Nat → List α → List (List α)
  | 0, _ => []
  | _, [] => []
  | fuel + 1, x :: xs => (x :: xs).take n :: chunksGo n fuel ((x :: xs).drop n)

/-- `chunks(l, n)` from `sources.py`: successive `n`-sized slices
`l[i:i+n]` for `i in range(0, len(l), n)`.  (Python raises `ValueError`
when `n = 0`; the model returns no chunks there, and every claim about
`chunks` assumes `n > 0`.) -/
def chunks {α : Type} (l : List α) (n : Nat) : List (List α) :=
  if n = 0 then [] else chunksGo n l.length l

theorem upChar_upChar (n : Nat) : upChar (upChar n) = upChar n := by
  simp only [upChar]
  by_cases h : 97 <= n /\ n <= 122
  · rw [if_pos h, if_neg (by omega)]
  · rw [if_neg h, if_neg h]

theorem upper_upper (s : PyStr) : upper (upper s) = upper s := by
  simp [upper, upChar_upChar]

theorem chunksGo_nil {α : Type} (n fuel : Nat) :
    chunksGo n fuel ([] : List α) = [] := by
  cases fuel <;> simp [chunksGo]

theorem chunks_nil {α : Type} (n : Nat) : chunks ([] : List α) n = [] := by
  unfold chunks
  split
  · rfl
  · exact chunksGo_nil n 0

theorem chunksGo_flatten {α : Type} (n : Nat) (hn : 0 < n) :
    ∀ (fuel : Nat) (l : List α), l.length <= fuel →
      (chunksGo n fuel l).flatten = l := by
  intro fuel
  induction fuel with
  | zero =>
    intro l hl
    have h0 : l = [] := List.eq_nil_of_length_eq_zero (by omega)
    subst h0
    simp [chunksGo]
  | succ f ih =>
    intro l hl
    match l with
    | [] => simp [chunksGo]
    | x :: xs =>
      rw [chunksGo]
      simp only [List.flatten_cons]
      rw [ih ((x :: xs).drop n) (by simp only [List.length_drop, List.length_cons] at hl ⊢; omega)]
      exact List.take_append_drop n (x :: xs)

theorem chunksGo_length {α : Type} (n : Nat) (hn : 0 < n) :
    ∀ (fuel : Nat) (l : List α), l.length <= fuel →
      (chunksGo n fuel l).length = (l.length + n - 1) / n := by
  intro fuel
  induction fuel with
  | zero =>
    intro l hl
    have h0 : l = [] := List.eq_nil_of_length_eq_zero (by omega)
    subst h0
    simp [chunksGo]
    rw [Nat.div_eq_of_lt (by omega)]
  | succ f ih =>
    intro l hl
    match l with
    | [] =>
      simp [chunksGo]
      rw [Nat.div_eq_of_lt (by omega)]
    | x :: xs =>
      rw [chunksGo]
      simp only [List.length_cons]
      rw [ih ((x :: xs).drop n) (by simp only [List.length_drop, List.length_cons] at hl ⊢; omega)]
      simp only [List.length_drop, List.length_cons]
      rw [show xs.length + 1 + n - 1 = xs.length + 1 - 1 + n from by omega,
        Nat.add_div_right _ hn]
      rcases Nat.lt_or_ge (xs.length + 1) n with h | h
      · rw [show xs.length + 1 - n + n - 1 = n - 1 from by omega,
          Nat.div_eq_of_lt (by omega), Nat.div_eq_of_lt (by omega)]
      · rw [show xs.length + 1 - n + n - 1 = xs.length + 1 - 1 from by omega]

theorem chunksGo_mem_length {α : Type} (n : Nat) (hn : 0 < n) :
    ∀ (fuel : Nat) (l : List α), l.length <= fuel →
      ∀ c ∈ chunksGo n fuel l, 0 < c.length /\ c.length <= n := by
  intro fuel
  induction fuel with
  | zero =>
    intro l hl
    have h0 : l = [] := List.eq_nil_of_length_eq_zero (by omega)
    subst h0
    simp [chunksGo]
  | succ f ih =>
    intro l hl c hc
    match l with
    | [] => simp [chunksGo] at hc
    | x :: xs =>
      rw [chunksGo] at hc
      rcases List.mem_cons.mp hc with h | h
      · subst h
        refine ⟨by simp; omega, ?_⟩
        simp [List.length_take]
      · exact ih ((x :: xs).drop n) (by simp only [List.length_drop, List.length_cons] at hl ⊢; omega) c h

theorem chunksGo_init_length {α : Type} (n : Nat) (hn : 0 < n) :
    ∀ (fuel : Nat) (l : List α), l.length <= fuel →
      ∀ i : Nat, i + 1 < (chunksGo n fuel l).length →
        ((chunksGo n fuel l).getD i []).length = n := by
  intro fuel
  induction fuel with
  | zero =>
    intro l hl
    have h0 : l = [] := List.eq_nil_of_length_eq_zero (by omega)
    subst h0
    simp [chunksGo]
  | succ f ih =>
    intro l hl i hi
    match l with
    | [] => simp [chunksGo] at hi
    | x :: xs =>
      rw [chunksGo] at hi ⊢
      cases i with
      | zero =>
        simp only [List.getD_cons_zero, List.length_take, List.length_cons]
        simp only [List.length_cons] at hi
        by_contra hne
        have hlen : (x :: xs).length <= n := by
          simp only [List.length_cons]
          omega
        rw [List.drop_eq_nil_of_le hlen, chunksGo_nil] at hi
        simp at hi
      | succ j =>
        simp only [List.getD_cons_succ]
        exact ih ((x :: xs).drop n) (by simp only [List.length_drop, List.length_cons] at hl ⊢; omega) j
          (by simpa using hi)

theorem chunks_flatten {α : Type} (l : List α) (n : Nat) (hn : 0 < n) :
    (chunks l n).flatten = l := by
  unfold chunks
  rw [if_neg (by omega)]
  exact chunksGo_flatten n hn l.length l le_rfl

theorem chunks_length {α : Type} (l : List α) (n : Nat) (hn : 0 < n) :
    (chunks l n).length = (l.length + n - 1) / n := by
  unfold chunks
  rw [if_neg (by omega)]
  exact chunksGo_length n hn l.length l le_rfl

theorem chunks_mem_length {α : Type} (l : List α) (n : Nat) (hn : 0 < n) :
    ∀ c ∈ chunks l n, 0 < c.length /\ c.length <= n := by
  unfold chunks
  rw [if_neg (by omega)]
  exact chunksGo_mem_length n hn l.length l le_rfl

theorem chunks_init_length {α : Type} (l : List α) (n : Nat) (hn : 0 < n) :
    ∀ i : Nat, i + 1 < (chunks l n).length →
      ((chunks l n).getD i []).length = n := by
  unfold chunks
  rw [if_neg (by omega)]
  exact chunksGo_init_length n hn l.length l le_rfl

/-- C2: for every finite sequence `l` of length `L` and chunk size `n > 0`,
`chunks l n` yields exactly `⌈L/n⌉` groups; each group is non-empty and no
larger than `n`, every group but the last has length exactly `n`;
concatenating the groups reproduces `l`; and the empty sequence yields zero
groups. -/
theorem claim_C2_chunks (α : Type) (l : List α) (n : Nat) (hn : 0 < n) :
    (chunks l n).length = (l.length + n - 1) / n ∧
    (chunks l n).flatten = l ∧
    (∀ c ∈ chunks l n, 0 < c.length ∧ c.length ≤ n) ∧
    (∀ i : Nat, i + 1 < (chunks l n).length → ((chunks l n).getD i []).length = n) ∧
    chunks ([] : List α) n = [] :=
  ⟨chunks_length l n hn, chunks_flatten l n hn, chunks_mem_length l n hn,
    chunks_init_length l n hn, chunks_nil n⟩

/-- Witness for C2 at `l = [0,1,2,3,4]`, `n = 2`: three chunks
`[[0,1],[2,3],[4]]`. -/
theorem claim_C2_chunks_witness :
    0 < 2 ∧ ((chunks [0, 1, 2, 3, 4] 2).length = ([0, 1, 2, 3, 4].length + 2 - 1) / 2 ∧
      (chunks [0, 1, 2, 3, 4] 2).flatten = [0, 1, 2, 3, 4] ∧
      (∀ c ∈ chunks [0, 1, 2, 3, 4] 2, 0 < c.length ∧ c.length ≤ 2) ∧
      (∀ i : Nat, i + 1 < (chunks [0, 1, 2, 3, 4] 2).length →
        ((chunks [0, 1, 2, 3, 4] 2).getD i []).length = 2) ∧
      chunks ([] : List ℕ) 2 = []) :=
  ⟨by decide, claim_C2_chunks ℕ [0, 1, 2, 3, 4] 2 (by decide)⟩


theorem mem_dictInsert {V : Type} (m : List (PyStr × V)) (k : PyStr) (v : V)
    (p : PyStr × V) (hp : p ∈ dictInsert m k v) : p = (k, v) ∨ p ∈ m := by
  unfold dictInsert at hp
  by_cases hc : (m.map Prod.fst).contains k
  · rw [if_pos hc] at hp
    obtain ⟨q, hq, hfq⟩ := List.mem_map.mp hp
    by_cases hqk : q.1 = k
    · rw [if_pos hqk] at hfq
      exact Or.inl hfq.symm
    · rw [if_neg hqk] at hfq
      exact Or.inr (hfq ▸ hq)
  · rw [if_neg hc] at hp
    rcases List.mem_append.mp hp with h | h
    · exact Or.inr h
    · exact Or.inl (by simpa using h)

/-- One `<METAR>` element of the NOAA XML envelope: the `station_id` field
plus the remaining fields, which `sources.py` passes through untouched. -/
structure MetarEntry where
  station_id : PyStr
  fields : List (PyStr × PyStr)
deriving DecidableEq

/-- Outcome of `parsexml(response.text)['response']['data']['METAR']` for
one chunk's response (`sources.py` lines 65-71): a parse failure (the
`except` block re-raises), a single entry (the provider does not wrap
single results in a list), or a list of entries. -/
inductive ParseOutcome where
  | failed : ParseOutcome
  | single : MetarEntry → ParseOutcome
  | multi : List MetarEntry → ParseOutcome
deriving DecidableEq

/-- Lines 66-71: extract the entry list, wrapping a single entry into a
one-element list; a parse failure re-raises out of `get_metar_info`. -/
def normalizeEnvelope : ParseOutcome → Except Unit (List MetarEntry)
  | .failed => .error ()
  | .single e => .ok [e]
  | .multi es => .ok es

/-- The NOAA request URL for one chunk: the `NOAA.URL` template
instantiated with the subdomain and the comma-joined chunk (line 63). -/
def NOAA.url (subdomain : PyStr) (chunk : List PyStr) : PyStr :=
  chars "https://" ++ subdomain ++
    chars (".aviationweather.gov/adds/dataserver_current/httpparam" ++
      "?dataSource=metars&requestType=retrieve&format=xml&hoursBeforeNow=2" ++
      "&mostRecentForEachStation=true&stationString=") ++
    joinWith (chars ",") chunk

/-- The chunk loop of `NOAA.get_metar_info` (lines 62-77): the response for
the `i`-th chunk arrives through the oracle; a parse failure aborts the
whole call (the local `metars` dict `acc` is discarded); on success each
entry is inserted under its upper-cased `station_id`. -/
def NOAA.run (oracle : Nat → ParseOutcome) :
    List (List PyStr) → Nat → List (PyStr × MetarEntry) →
      Except Unit (List (PyStr × MetarEntry))
  | [], _, acc => .ok acc
  | _ :: rest, i, acc =>
    match normalizeEnvelope (oracle i) with
    | .error _ => .error ()
    | .ok entries =>
        NOAA.run oracle rest (i + 1)
          (entries.foldl (fun m e => dictInsert m (upper e.station_id) e) acc)

/-- `NOAA.get_metar_info` (lines 55-79): one query per 250-code chunk of
the constructed airport-code list, all-or-nothing.  `NOAABackup` inherits
this method unchanged (it only fixes `subdomain = bcaws`, which affects
the URL, not the result), so the model covers both the primary and the
backup API adapters. -/
def NOAA.get_metar_info (airport_codes : List PyStr)
    (oracle : Nat → ParseOutcome) : Except Unit (List (PyStr × MetarEntry)) :=
  NOAA.run oracle (chunks airport_codes 250) 0 []

theorem NOAA.run_error (oracle : Nat → ParseOutcome) :
    ∀ (cs : List (List PyStr)) (i : Nat) (acc : List (PyStr × MetarEntry)),
      (∃ j, j < cs.length ∧ oracle (i + j) = .failed) →
      NOAA.run oracle cs i acc = .error () := by
  intro cs
  induction cs with
  | nil =>
    intro i acc h
    obtain ⟨j, hj, _⟩ := h
    simp at hj
  | cons c rest ih =>
    intro i acc h
    obtain ⟨j, hj, hfail⟩ := h
    rw [NOAA.run]
    cases j with
    | zero =>
      rw [Nat.add_zero] at hfail
      rw [hfail]
      rfl
    | succ k =>
      have hrest : ∃ j, j < rest.length ∧ oracle (i + 1 + j) = .failed := by
        refine ⟨k, by simp at hj; omega, ?_⟩
        rw [show i + 1 + k = i + (k + 1) from by omega]
        exact hfail
      cases hoc : oracle i with
      | failed => rfl
      | single e => exact ih (i + 1) _ hrest
      | multi es => exact ih (i + 1) _ hrest

/-- One element of the SkyVector `weather` JSON array: its station code
`s` and raw METAR text `m`, the only fields `sources.py` reads. -/
structure SkyItem where
  s : PyStr
  m : PyStr
deriving DecidableEq

/-- `SkyVector.__init__` line 123: the stored airport codes, upper-cased
at construction. -/
def SkyVector.airportCodes (airport_codes : List PyStr) : List PyStr :=
  airport_codes.map upper

/-- `SkyVector.get_metar_info` (lines 126-152) after a successful JSON
decode (`data` is the `weather` array; a decode failure re-raises): keep
only items whose code is in the stored code list, recording the raw text
under the upper-cased code. -/
def SkyVector.get_metar_info (storedCodes : List PyStr)
    (response : Except Unit (List SkyItem)) :
    Except Unit (List (PyStr × PyStr)) :=
  match response with
  | .error _ => .error ()
  | .ok data =>
      .ok (data.foldl
        (fun ms it => if it.s ∈ storedCodes then dictInsert ms (upper it.s) it.m
          else ms)
        [])

theorem SkyVector.fold_keys (codes : List PyStr) :
    ∀ (data : List SkyItem) (acc : List (PyStr × PyStr)),
      (∀ p ∈ acc, p.1 ∈ codes.map upper) →
      ∀ p ∈ data.foldl
        (fun ms it => if it.s ∈ codes.map upper then dictInsert ms (upper it.s) it.m
          else ms) acc,
        p.1 ∈ codes.map upper := by
  intro data
  induction data with
  | nil => intro acc hacc p hp; exact hacc p hp
  | cons it rest ih =>
    intro acc hacc p hp
    simp only [List.foldl_cons] at hp
    by_cases hmem : it.s ∈ codes.map upper
    · rw [if_pos hmem] at hp
      refine ih _ ?_ p hp
      intro q hq
      rcases mem_dictInsert _ _ _ q hq with h | h
      · rw [h]
        obtain ⟨c, hc, hcu⟩ := List.mem_map.mp hmem
        show upper it.s ∈ codes.map upper
        rw [← hcu, upper_upper]
        exact List.mem_map.mpr ⟨c, hc, rfl⟩
      · exact hacc q h
    · rw [if_neg hmem] at hp
      exact ih _ hacc p hp

/-- Counterexample to C1: the Primary API adapter constructed for the code
set `["KDEN"]`, given a response envelope containing a station outside
that set (`KSFO`), returns a mapping keyed by `KSFO`, which is not the
upper-casing of any constructed code: `NOAA.get_metar_info` never filters
response keys against the adapter's airport-code set. -/
theorem claim_C1_counterexample :
    NOAA.get_metar_info [chars "KDEN"]
      (fun _ => ParseOutcome.multi [⟨chars "KSFO", []⟩]) =
      .ok [(chars "KSFO", ⟨chars "KSFO", []⟩)] ∧
    chars "KSFO" ∉ [chars "KDEN"].map upper := by
  constructor
  · rfl
  · decide

/-- C1 (amended): only the Geographic API adapter (`SkyVector`) guarantees
the scope invariant: every key of a successful `SkyVector` retrieval is a
member of the airport-code set the adapter was constructed with,
upper-cased (its bounding-box extras are filtered out).  The other
adapters (NOAA and its backup, BOM, IFIS) take their keys from the
provider's response body, upper-cased but unfiltered, as the
counterexample shows. -/
theorem claim_C1_amended (airport_codes : List PyStr) (data : List SkyItem)
    (m : List (PyStr × PyStr))
    (hok : SkyVector.get_metar_info (SkyVector.airportCodes airport_codes)
      (.ok data) = .ok m) :
    ∀ p ∈ m, p.1 ∈ airport_codes.map upper := by
  simp only [SkyVector.get_metar_info, SkyVector.airportCodes,
    Except.ok.injEq] at hok
  subst hok
  exact SkyVector.fold_keys airport_codes data [] (by simp)

/-- Witness for the amended C1 at codes `["kden"]` and a response holding
stations `KDEN` (kept) and `KSFO` (filtered out). -/
theorem claim_C1_amended_witness :
    SkyVector.get_metar_info (SkyVector.airportCodes [chars "kden"])
      (.ok [⟨chars "KDEN", chars "KDEN 221856Z"⟩,
        ⟨chars "KSFO", chars "KSFO 221856Z"⟩]) =
      .ok [(chars "KDEN", chars "KDEN 221856Z")] ∧
    ∀ p ∈ [(chars "KDEN", chars "KDEN 221856Z")],
      p.1 ∈ [chars "kden"].map upper :=
  ⟨rfl,
    claim_C1_amended [chars "kden"]
      [⟨chars "KDEN", chars "KDEN 221856Z"⟩, ⟨chars "KSFO", chars "KSFO 221856Z"⟩]
      [(chars "KDEN", chars "KDEN 221856Z")] rfl⟩

/-- C9: for the Primary API adapter (and its backup, which inherits
`get_metar_info` verbatim), if parsing any chunk's response envelope
fails, the whole retrieval aborts with an error and the caller receives no
mapping at all — in particular no entries parsed from earlier chunks. -/
theorem claim_C9_noaa_all_or_nothing (airport_codes : List PyStr)
    (oracle : Nat → ParseOutcome)
    (h : ∃ j, j < (chunks airport_codes 250).length ∧ oracle j = .failed) :
    NOAA.get_metar_info airport_codes oracle = .error () := by
  unfold NOAA.get_metar_info
  apply NOAA.run_error
  obtain ⟨j, hj, hf⟩ := h
  exact ⟨j, hj, by simpa using hf⟩

/-- Witness for C9: 251 codes make two chunks; the envelope of the second
chunk fails to parse while the first parses fine, and the call returns an
error rather than the first chunk's entries. -/
theorem claim_C9_noaa_all_or_nothing_witness :
    (∃ j, j < (chunks (List.replicate 251 (chars "KDEN")) 250).length ∧
      (fun j : Nat => if j = 1 then ParseOutcome.failed
        else ParseOutcome.multi [⟨chars "KDEN", []⟩]) j = ParseOutcome.failed) ∧
    NOAA.get_metar_info (List.replicate 251 (chars "KDEN"))
      (fun j : Nat => if j = 1 then ParseOutcome.failed
        else ParseOutcome.multi [⟨chars "KDEN", []⟩]) = .error () :=
  ⟨⟨1, by decide, by decide⟩,
    claim_C9_noaa_all_or_nothing _ _ ⟨1, by decide, by decide⟩⟩


/-- Python `str.split()` whitespace class. -/
def isSpace (n : Nat) : Bool :=
  n = 32 || n = 9 || n = 10 || n = 13 || n = 11 || n = 12

/-- Worker for `pySplit`: the current reversed word is in `acc`. -/
def pySplitGo : PyStr → PyStr → List PyStr
  | [], acc => if acc.isEmpty then [] else [acc.reverse]
  | c :: rest, acc =>
    if isSpace c then
      if acc.isEmpty then pySplitGo rest []
      else acc.reverse :: pySplitGo rest []
    else pySplitGo rest (c :: acc)

/-- Python `s.split()` with no argument: split on runs of whitespace,
discarding leading/trailing whitespace and empty words. -/
def pySplit (s : PyStr) : List PyStr := pySplitGo s []

theorem pySplitGo_word (s : PyStr) :
    ∀ (w acc : PyStr), (∀ ch ∈ w, isSpace ch = false) →
      pySplitGo (w ++ s) acc = pySplitGo s (w.reverse ++ acc) := by
  intro w
  induction w with
  | nil => intro acc _; simp
  | cons c w ih =>
    intro acc hw
    have hc : isSpace c = false := hw c (by simp)
    simp only [List.cons_append, pySplitGo, hc]
    rw [if_neg (by simp [hc])]
    rw [List.reverse_cons, List.append_assoc]
    simp only [List.singleton_append]
    exact ih (c :: acc) (fun ch hch => hw ch (by simp [hch]))

theorem pySplit_joinWith (codes : List PyStr)
    (h : ∀ c ∈ codes, c ≠ [] ∧ ∀ ch ∈ c, isSpace ch = false) :
    pySplit (joinWith (chars " ") codes) = codes := by
  induction codes with
  | nil => rfl
  | cons c rest ih =>
    obtain ⟨hc0, hcs⟩ := h c (by simp)
    match rest with
    | [] =>
      show pySplitGo c [] = [c]
      have hw := pySplitGo_word [] c [] hcs
      rw [List.append_nil] at hw
      rw [hw]
      simp only [pySplitGo]
      rw [if_neg (by simpa using hc0)]
      simp
    | c2 :: rest2 =>
      show pySplitGo (c ++ chars " " ++ joinWith (chars " ") (c2 :: rest2)) [] =
        c :: (c2 :: rest2)
      rw [List.append_assoc, pySplitGo_word _ c [] hcs]
      show pySplitGo (32 :: joinWith (chars " ") (c2 :: rest2)) (c.reverse ++ []) =
        c :: (c2 :: rest2)
      rw [pySplitGo]
      rw [if_pos (by decide)]
      rw [if_neg (by simpa using hc0)]
      have hih := ih (fun x hx => h x (by simp [hx]))
      rw [pySplit] at hih
      rw [hih]
      simp

/-- The fixed allow-list `IFIS.ACCEPTED_CODES` (sources.py line 188; a
Python set used only for membership tests, modelled as a list). -/
def IFIS.ACCEPTED_CODES : List PyStr :=
  [chars "NZCH", chars "NZCI", chars "NZAA", chars "NZDN", chars "NZGS",
   chars "NZHN", chars "NZHK", chars "NZNV", chars "NZKK", chars "NZMS",
   chars "NZMF", chars "NZNR", chars "NZNS", chars "NZNP", chars "NZOU",
   chars "NZOH", chars "NZPM", chars "NZPP", chars "NZQN", chars "NZRO",
   chars "NZAP", chars "NZTG", chars "NZMO", chars "NZTU", chars "NZWF",
   chars "NZWN", chars "NZWS", chars "NZWK", chars "NZWU", chars "NZWR",
   chars "NZWP", chars "NZWB"]

/-- `IFIS.__init__` line 191: the list comprehension keeping only
allow-listed requested codes, in order. -/
def IFIS.requestCodes (airport_codes : List PyStr) : List PyStr :=
  airport_codes.filter (fun code => code ∈ IFIS.ACCEPTED_CODES)

/-- `self.data_payload` of `IFIS.__init__` (lines 198-201): the outbound
data-request POST body, with `MetLocations` the space-joined filtered
codes. -/
structure IFISDataPayload where
  METAR : Nat
  MetLocations : PyStr
deriving DecidableEq

def IFIS.data_payload (airport_codes : List PyStr) : IFISDataPayload :=
  ⟨1, joinWith (chars " ") (IFIS.requestCodes airport_codes)⟩

/-- C7: for every requested code set of well-formed codes (non-empty,
whitespace-free), the station codes appearing in the authenticated-scrape
adapter's outbound data-request payload (`MetLocations`) are exactly the
requested codes that are on the allow-list; codes outside the allow-list
are silently dropped (construction is total — no error is raised). -/
theorem claim_C7_ifis_allowlist (airport_codes : List PyStr)
    (h : ∀ c ∈ airport_codes, c ≠ [] ∧ ∀ ch ∈ c, isSpace ch = false) :
    ∀ c, c ∈ pySplit ((IFIS.data_payload airport_codes).MetLocations) ↔
      (c ∈ airport_codes ∧ c ∈ IFIS.ACCEPTED_CODES) := by
  intro c
  show c ∈ pySplit (joinWith (chars " ") (IFIS.requestCodes airport_codes)) ↔ _
  rw [pySplit_joinWith (IFIS.requestCodes airport_codes)
    (fun x hx => h x (List.mem_of_mem_filter hx))]
  simp [IFIS.requestCodes, List.mem_filter]

/-- Witness for C7 at the mixed request `["NZCH", "YBBN"]`: the payload
carries exactly `NZCH`; the non-allow-listed `YBBN` is dropped. -/
theorem claim_C7_ifis_allowlist_witness :
    (∀ c ∈ [chars "NZCH", chars "YBBN"], c ≠ [] ∧ ∀ ch ∈ c, isSpace ch = false) ∧
    ∀ c, c ∈ pySplit ((IFIS.data_payload [chars "NZCH", chars "YBBN"]).MetLocations) ↔
      (c ∈ [chars "NZCH", chars "YBBN"] ∧ c ∈ IFIS.ACCEPTED_CODES) :=
  ⟨by decide, claim_C7_ifis_allowlist [chars "NZCH", chars "YBBN"] (by decide)⟩

/-- `NOAA.__init__` line 52: the airport codes are stored exactly as given
(no canonicalization). -/
def NOAA.airportCodes (airport_codes : List PyStr) : List PyStr :=
  airport_codes

/-- `BOM.__init__` line 161: `self.airport_codes` is the comma-joined
requested codes, verbatim, which becomes the `keyword` field of the search
payload (line 166). -/
def BOM.airportCodes (airport_codes : List PyStr) : PyStr :=
  joinWith (chars ",") airport_codes

/-- Counterexample to C5: lower-cased input does not produce the same
outbound request content as upper-cased input.  The Primary API adapter
embeds `kden` verbatim in its query URL, and the authenticated-scrape
adapter's case-sensitive allow-list filter drops `nzch` entirely, leaving
an empty `MetLocations` where `NZCH` would appear. -/
theorem claim_C5_counterexample :
    ((chunks (NOAA.airportCodes [chars "kden"]) 250).map (NOAA.url (chars "www")) ≠
      (chunks (NOAA.airportCodes [chars "KDEN"]) 250).map (NOAA.url (chars "www"))) ∧
    (IFIS.data_payload [chars "nzch"]).MetLocations ≠
      (IFIS.data_payload [chars "NZCH"]).MetLocations := by
  constructor
  · decide
  · decide

/-- C5 (amended): result keys are upper-cased by every adapter, but only
the Geographic API adapter canonicalizes its input: `SkyVector`
upper-cases the code set at construction, so lower- and upper-cased inputs
yield the same stored configuration; `NOAA` and `BOM` embed the requested
codes verbatim in the outbound request, and `IFIS` filters them
case-sensitively against its upper-case allow-list (as the counterexample
shows). -/
theorem claim_C5_amended (airport_codes : List PyStr) :
    SkyVector.airportCodes (airport_codes.map upper) =
      SkyVector.airportCodes airport_codes := by
  unfold SkyVector.airportCodes
  rw [List.map_map]
  have h : upper ∘ upper = upper := funext upper_upper
  rw [h]


/-- One outbound network operation, tagged by how `sources.py` issues it:
through the retry-decorated `METARSource._query` (`requests.get`, lines
24-36), as a direct `requests.post`/`session.post` with no retry wrapper,
or as a headless-browser navigation. -/
inductive NetOp where
  | retriedGet : PyStr → NetOp
  | plainPost : PyStr → NetOp
  | browserGoto : PyStr → NetOp
deriving DecidableEq

/-- Whether the operation runs under the Retrying HTTP Fetcher. -/
def NetOp.retried : NetOp → Bool
  | .retriedGet _ => true
  | .plainPost _ => false
  | .browserGoto _ => false

/-- The network operations of one `NOAA.get_metar_info` call (lines
62-64): one GET through `self._query()` per 250-code chunk. -/
def NOAA.netOps (subdomain : PyStr) (airport_codes : List PyStr) : List NetOp :=
  (chunks (NOAA.airportCodes airport_codes) 250).map
    (fun c => .retriedGet (NOAA.url subdomain c))

/-- `NOAABackup.__init__` (line 85) only fixes `subdomain = bcaws`. -/
def NOAABackup.netOps (airport_codes : List PyStr) : List NetOp :=
  NOAA.netOps (chars "bcaws") airport_codes

/-- The single GET of `SkyVector.get_metar_info` through `self._query()`
(line 127), to the bounding-box URL derived at construction. -/
def SkyVector.netOps (url : PyStr) : List NetOp := [.retriedGet url]

/-- `BOM.URL` (line 158). -/
def BOM.URL : PyStr := chars "http://www.bom.gov.au/aviation/php/process.php"

/-- The single direct `requests.post` of `BOM.get_metar_info` (line 171),
not routed through `_query`. -/
def BOM.netOps : List NetOp := [.plainPost BOM.URL]

/-- `IFIS.URL` and `IFIS.LOGIN_URL` (lines 184-185). -/
def IFIS.URL : PyStr :=
  chars "https://www.ifis.airways.co.nz/script/briefing/met_briefing_proc.asp"

def IFIS.LOGIN_URL : PyStr :=
  chars "https://www.ifis.airways.co.nz/secure/script/user_reg/login_proc.asp"

/-- The two direct `session.post` calls of `IFIS.get_metar_info` (lines
205-209): login, then data request; neither goes through `_query`. -/
def IFIS.netOps : List NetOp := [.plainPost IFIS.LOGIN_URL, .plainPost IFIS.URL]

/-- `KO61.URL` (line 223). -/
def KO61.URL : PyStr := chars "https://ko61.awos.live"

/-- The browser navigation of `KO61.get_metar_info` (line 230). -/
def KO61.netOps : List NetOp := [.browserGoto KO61.URL]

/-- Counterexample to C4: the HTML-scrape adapter's one outbound request —
and likewise the authenticated-scrape adapter's login request — is a
direct POST that does not run under the Retrying HTTP Fetcher. -/
theorem claim_C4_counterexample :
    (NetOp.plainPost BOM.URL ∈ BOM.netOps ∧
      (NetOp.plainPost BOM.URL).retried = false) ∧
    (NetOp.plainPost IFIS.LOGIN_URL ∈ IFIS.netOps ∧
      (NetOp.plainPost IFIS.LOGIN_URL).retried = false) := by
  constructor
  · exact ⟨by simp [BOM.netOps], rfl⟩
  · exact ⟨by simp [IFIS.netOps], rfl⟩

/-- C4 (amended): only the primary-API, backup-API and geographic-API
adapters execute their HTTP requests through the Retrying HTTP Fetcher;
the HTML-scrape and authenticated-scrape adapters issue direct unretried
POSTs, and the rendered-page adapter navigates a headless browser outside
the fetcher, so transport failures there surface immediately without the
backoff policy. -/
theorem claim_C4_amended (subdomain url : PyStr) (airport_codes : List PyStr) :
    (∀ op ∈ NOAA.netOps subdomain airport_codes, op.retried = true) ∧
    (∀ op ∈ NOAABackup.netOps airport_codes, op.retried = true) ∧
    (∀ op ∈ SkyVector.netOps url, op.retried = true) ∧
    (∀ op ∈ BOM.netOps, op.retried = false) ∧
    (∀ op ∈ IFIS.netOps, op.retried = false) ∧
    (∀ op ∈ KO61.netOps, op.retried = false) := by
  refine ⟨?_, ?_, ?_, ?_, ?_, ?_⟩
  · intro op hop
    obtain ⟨c, _, rfl⟩ := List.mem_map.mp hop
    rfl
  · intro op hop
    obtain ⟨c, _, rfl⟩ := List.mem_map.mp hop
    rfl
  · intro op hop
    simp only [SkyVector.netOps, List.mem_singleton] at hop
    subst hop
    rfl
  · intro op hop
    simp only [BOM.netOps, List.mem_singleton] at hop
    subst hop
    rfl
  · intro op hop
    simp only [IFIS.netOps, List.mem_cons, List.mem_singleton] at hop
    rcases hop with h | h | h
    · subst h; rfl
    · subst h; rfl
    · simp at h
  · intro op hop
    simp only [KO61.netOps, List.mem_singleton] at hop
    subst hop
    rfl

/-- Witness for the amended C4 at a concrete configuration. -/
theorem claim_C4_amended_witness :
    (∀ op ∈ NOAA.netOps (chars "www") [chars "KDEN"], op.retried = true) ∧
    (∀ op ∈ NOAABackup.netOps [chars "KDEN"], op.retried = true) ∧
    (∀ op ∈ SkyVector.netOps (chars "https://skyvector.com/api/dLayer"),
      op.retried = true) ∧
    (∀ op ∈ BOM.netOps, op.retried = false) ∧
    (∀ op ∈ IFIS.netOps, op.retried = false) ∧
    (∀ op ∈ KO61.netOps, op.retried = false) :=
  claim_C4_amended (chars "www") (chars "https://skyvector.com/api/dLayer")
    [chars "KDEN"]


theorem dictInsert_ne_nil {V : Type} (m : List (PyStr × V)) (k : PyStr) (v : V) :
    dictInsert m k v ≠ [] := by
  unfold dictInsert
  by_cases hc : (m.map Prod.fst).contains k
  · rw [if_pos hc]
    intro h
    rw [List.map_eq_nil_iff.mp h] at hc
    simp at hc
  · rw [if_neg hc]
    simp

/-- A bounding box as computed by `SkyVector._find_coordinates` (lines
109-117): min/max over the found coordinates, expanded by 0.5 degrees on
all sides. -/
structure BBox where
  lat1 : ℚ
  lon1 : ℚ
  lat2 : ℚ
  lon2 : ℚ
deriving DecidableEq

/-- Python `min`/`max` over a non-empty sequence, as a fold from its first
element. -/
def listMin (x : ℚ) (xs : List ℚ) : ℚ := xs.foldl min x

def listMax (x : ℚ) (xs : List ℚ) : ℚ := xs.foldl max x

/-- The CSV scan of `SkyVector._find_coordinates` (lines 100-107): build
the `data` dict from rows `(code, lat, lon)` whose code is in the stored
airport-code list (the textual lat/lon fields are modelled as the exact
numbers `float` reads from them). -/
def SkyVector.coordData (storedCodes : List PyStr)
    (dataset : List (PyStr × ℚ × ℚ)) : List (PyStr × ℚ × ℚ) :=
  dataset.foldl
    (fun d row => if row.1 ∈ storedCodes then dictInsert d row.1 row.2 else d) []

/-- `SkyVector._find_coordinates` (lines 97-119): derive the bounding box
over the coordinates found for the stored codes, expanded by 0.5 degrees.
With no matching row, Python's `min` over an empty generator raises an
uncaught `ValueError`, modelled as `none`.  No check that every requested
code was found is performed anywhere. -/
def SkyVector.find_coordinates (storedCodes : List PyStr)
    (dataset : List (PyStr × ℚ × ℚ)) : Option BBox :=
  match SkyVector.coordData storedCodes dataset with
  | [] => none
  | v :: vs =>
      some ⟨listMin v.2.1 (vs.map (fun p => p.2.1)) - (1 / 2),
        listMin v.2.2 (vs.map (fun p => p.2.2)) - (1 / 2),
        listMax v.2.1 (vs.map (fun p => p.2.1)) + (1 / 2),
        listMax v.2.2 (vs.map (fun p => p.2.2)) + (1 / 2)⟩

theorem SkyVector.coordData_eq_nil (storedCodes : List PyStr) :
    ∀ (rows acc : List (PyStr × ℚ × ℚ)),
      rows.foldl
        (fun d row => if row.1 ∈ storedCodes then dictInsert d row.1 row.2 else d)
        acc = []
      ↔ (acc = [] ∧ ∀ row ∈ rows, row.1 ∉ storedCodes) := by
  intro rows
  induction rows with
  | nil => intro acc; simp
  | cons r rest ih =>
    intro acc
    simp only [List.foldl_cons]
    by_cases hr : r.1 ∈ storedCodes
    · rw [if_pos hr, ih]
      constructor
      · rintro ⟨hnil, _⟩
        exact absurd hnil (dictInsert_ne_nil acc r.1 r.2)
      · rintro ⟨_, hall⟩
        exact absurd hr (hall r (by simp))
    · rw [if_neg hr, ih]
      constructor
      · rintro ⟨h1, h2⟩
        refine ⟨h1, fun row hrow => ?_⟩
        rcases List.mem_cons.mp hrow with h | h
        · subst h; exact hr
        · exact h2 row h
      · rintro ⟨h1, h2⟩
        exact ⟨h1, fun row hrow => h2 row (by simp [hrow])⟩

/-- Counterexample to C6: the Geographic API adapter constructed for
`["KDEN", "XXXX"]` over a coordinate dataset that knows only `KDEN`
succeeds (deriving its box from `KDEN` alone) even though the requested
code `XXXX` has no coordinate; no `ConfigurationError` is raised. -/
theorem claim_C6_counterexample :
    (SkyVector.find_coordinates [chars "KDEN", chars "XXXX"]
      [(chars "KDEN", 39, -104)]).isSome = true ∧
    chars "XXXX" ∉ [(chars "KDEN", (39 : ℚ), (-104 : ℚ))].map Prod.fst := by
  constructor
  · rfl
  · decide

/-- C6 (amended): `_find_coordinates` never checks that every requested
code has a coordinate.  Requested codes missing from the dataset are
silently ignored; construction fails (an uncaught `ValueError` from `min`
over an empty sequence, not a `ConfigurationError`) exactly when no
dataset row matches any requested code, and otherwise succeeds with the
bounding box derived from whatever coordinates were found. -/
theorem claim_C6_amended (storedCodes : List PyStr)
    (dataset : List (PyStr × ℚ × ℚ)) :
    (SkyVector.find_coordinates storedCodes dataset).isSome = true ↔
      ∃ row ∈ dataset, row.1 ∈ storedCodes := by
  have hnil := SkyVector.coordData_eq_nil storedCodes dataset []
  unfold SkyVector.find_coordinates
  rcases hdata : SkyVector.coordData storedCodes dataset with _ | ⟨v, vs⟩
  · rw [SkyVector.coordData] at hdata
    simp only [Option.isSome_none]
    constructor
    · intro h
      simp at h
    · rintro ⟨row, hrow, hmem⟩
      exact absurd hmem ((hnil.mp hdata).2 row hrow)
  · rw [SkyVector.coordData] at hdata
    simp only [Option.isSome_some, true_iff]
    by_contra hno
    push_neg at hno
    have hcontr := hnil.mpr ⟨rfl, hno⟩
    rw [hdata] at hcontr
    cases hcontr

/-- Witness for the amended C6: the counterexample's dataset has a row
matching the requested `KDEN`, so construction succeeds. -/
theorem claim_C6_amended_witness :
    (SkyVector.find_coordinates [chars "KDEN", chars "XXXX"]
      [(chars "KDEN", 39, -104)]).isSome = true :=
  (claim_C6_amended [chars "KDEN", chars "XXXX"] [(chars "KDEN", 39, -104)]).mpr
    ⟨(chars "KDEN", 39, -104), by simp, by simp⟩


/-- Python `s.strip()`: trim whitespace from both ends. -/
def pyStrip (s : PyStr) : PyStr :=
  ((s.dropWhile (fun c => isSpace c)).reverse.dropWhile (fun c => isSpace c)).reverse

/-- The failure points of one `KO61.get_metar_info` call: whether
`browser.newPage()` succeeds (line 227 — outside the `try` block), whether
`page.goto`, the `waitForSelector` element wait and the `page.evaluate`
extraction succeed (lines 230-237 — inside the `try`), and the rendered
text when extraction succeeds. -/
structure KO61World where
  newPage_ok : Bool
  goto_ok : Bool
  wait_ok : Bool
  eval_ok : Bool
  pageText : PyStr
deriving DecidableEq

/-- How a `KO61.get_metar_info` call exits: returning a value (`.returned
none` models Python's `return None` from the `except Exception` handler)
or propagating an exception to the caller. -/
inductive KO61Exit where
  | returned : Option (List (PyStr × PyStr)) → KO61Exit
  | raised : KO61Exit
deriving DecidableEq

/-- Result of one `KO61.get_metar_info` call together with whether
`browser.close()` ran. -/
structure KO61Run where
  exit : KO61Exit
  browserClosed : Bool
deriving DecidableEq

/-- `KO61.get_metar_info` (lines 225-255).  `browser.newPage()` runs
before the `try`, so its failure propagates and skips the `finally:
browser.close()`.  Inside the `try`, any failure of goto/wait/evaluate —
or a missing `KO61` token in the text (`metar_parts.index` raising
`ValueError`) — is caught by `except Exception` and turned into `return
None`, after which `finally` closes the browser; the success path returns
the one-station mapping, also closing the browser. -/
def KO61.get_metar_info (w : KO61World) : KO61Run :=
  if w.newPage_ok = false then ⟨.raised, false⟩
  else if w.goto_ok = false ∨ w.wait_ok = false ∨ w.eval_ok = false then
    ⟨.returned none, true⟩
  else
    match (pySplit w.pageText).findIdx? (fun p => p == chars "KO61") with
    | none => ⟨.returned none, true⟩
    | some i =>
        ⟨.returned (some [(chars "KO61",
          pyStrip (joinWith (chars " ") ((pySplit w.pageText).drop i)))]), true⟩

/-- Counterexample to C8: when `browser.newPage()` fails (an exit path of
`retrieve`), the exception propagates instead of yielding an absent result
and the browser is not closed — `newPage` runs before the `try/finally`
block, so the release guarantee does not cover this path. -/
theorem claim_C8_counterexample :
    KO61.get_metar_info ⟨false, true, true, true, []⟩ =
      ⟨KO61Exit.raised, false⟩ ∧
    (KO61.get_metar_info ⟨false, true, true, true, []⟩).browserClosed = false := by
  constructor
  · rfl
  · rfl

/-- C8 (amended): on every call in which `browser.newPage()` succeeds, the
rendered-page adapter never propagates an error (it always returns, with
`none` for any failure of page load, element wait, extraction, or a
missing station token) and the browser is released; but a `newPage`
failure, which happens before the guarded block, raises and leaks the
browser, as the counterexample shows. -/
theorem claim_C8_amended (w : KO61World) (h : w.newPage_ok = true) :
    ((KO61.get_metar_info w).browserClosed = true ∧
      ∃ v, (KO61.get_metar_info w).exit = KO61Exit.returned v) ∧
    ((w.goto_ok = false ∨ w.wait_ok = false ∨ w.eval_ok = false) →
      (KO61.get_metar_info w).exit = KO61Exit.returned none) := by
  have h1 : ¬ w.newPage_ok = false := by simp [h]
  unfold KO61.get_metar_info
  rw [if_neg h1]
  by_cases h2 : w.goto_ok = false ∨ w.wait_ok = false ∨ w.eval_ok = false
  · rw [if_pos h2]
    exact ⟨⟨rfl, none, rfl⟩, fun _ => rfl⟩
  · rw [if_neg h2]
    rcases hfind : (pySplit w.pageText).findIdx? (fun p => p == chars "KO61")
      with _ | i
    · exact ⟨⟨rfl, none, rfl⟩, fun hc => absurd hc h2⟩
    · refine ⟨⟨rfl, ?_⟩, fun hc => absurd hc h2⟩
      exact ⟨some [(chars "KO61",
        pyStrip (joinWith (chars " ") ((pySplit w.pageText).drop i)))], rfl⟩

/-- Witness for the amended C8: the element wait fails, the call returns
an absent result and the browser is confirmed released. -/
theorem claim_C8_amended_witness :
    (((KO61.get_metar_info ⟨true, true, false, true, []⟩).browserClosed = true ∧
      ∃ v, (KO61.get_metar_info ⟨true, true, false, true, []⟩).exit =
        KO61Exit.returned v) ∧
    (((⟨true, true, false, true, []⟩ : KO61World).goto_ok = false ∨
        (⟨true, true, false, true, []⟩ : KO61World).wait_ok = false ∨
        (⟨true, true, false, true, []⟩ : KO61World).eval_ok = false) →
      (KO61.get_metar_info ⟨true, true, false, true, []⟩).exit =
        KO61Exit.returned none)) ∧
    (KO61.get_metar_info ⟨true, true, false, true, []⟩).exit =
      KO61Exit.returned none :=
  have happ := claim_C8_amended ⟨true, true, false, true, []⟩ rfl
  ⟨happ, happ.2 (Or.inr (Or.inl rfl))⟩


/-- Python regex `\w` on the ASCII range: letters, digits, underscore. -/
def isWordChar (n : Nat) : Bool :=
  (48 ≤ n && n ≤ 57) || (65 ≤ n && n ≤ 90) || (97 ≤ n && n ≤ 122) || (n == 95)

/-- Does `s` start with the literal `p`? -/
def startsWith : PyStr → PyStr → Bool
  | _, [] => true
  | [], _ :: _ => false
  | c :: cs, p :: ps => c == p && startsWith cs ps

/-- The lazy `.*?` scan up to the boundary alternation of the extraction
regexes: at each position Python first tries the boundary alternatives in
order, else consumes one non-newline character (`.` does not match a
newline) and repeats; at end of input or at a newline the match attempt
fails.  Returns the consumed text and the input remaining after the
boundary. -/
def lazyScan (bnds : List PyStr) : PyStr → Option (PyStr × PyStr)
  | [] =>
    match bnds.find? (fun b => startsWith [] b) with
    | some b => some ([], ([] : PyStr).drop b.length)
    | none => none
  | c :: rest =>
    match bnds.find? (fun b => startsWith (c :: rest) b) with
    | some b => some ([], (c :: rest).drop b.length)
    | none =>
      if c == 10 then none
      else (lazyScan bnds rest).map (fun p => (c :: p.1, p.2))

/-- One attempt of the extraction pattern at the start of `s`: the literal
`METAR ` or `SPECI `, then the 4-word-character `CODE` group, then the
lazy scan to a boundary; the `METAR` group is `CODE` followed by the
scanned text (the regexes of lines 173 and 212 differ only in `bnds`).
Returns the `CODE` group, the `METAR` group and the input remaining after
the whole match. -/
def tryMatchAt (bnds : List PyStr) (s : PyStr) : Option (PyStr × PyStr × PyStr) :=
  match (if startsWith s (chars "METAR ") then some (s.drop 6)
      else if startsWith s (chars "SPECI ") then some (s.drop 6)
      else none) with
  | none => none
  | some s1 =>
      if (s1.take 4).length = 4 ∧ (s1.take 4).all isWordChar then
        match lazyScan bnds (s1.drop 4) with
        | none => none
        | some (t, r) => some (s1.take 4, s1.take 4 ++ t, r)
      else none

/-- `re.finditer` for the extraction pattern: scan left to right, trying a
match at each position; on a match, emit the `(CODE, METAR)` groups and
continue after the consumed text.  Driven by a fuel bound (the input
length dominates the number of scan steps, since every step consumes at
least one character). -/
def finditerGo (bnds : List PyStr) : Nat → PyStr → List (PyStr × PyStr)
  | 0, _ => []
  | _, [] => []
  | fuel + 1, c :: rest =>
    match tryMatchAt bnds (c :: rest) with
    | some (code, metar, after) => (code, metar) :: finditerGo bnds fuel after
    | none => finditerGo bnds fuel rest

def finditer (bnds : List PyStr) (s : PyStr) : List (PyStr × PyStr) :=
  finditerGo bnds s.length s

/-- Boundary alternations of the BOM regex (line 173) and the IFIS regex
(line 212), in Python alternation order. -/
def BOM.boundaries : List PyStr := [chars "<br />", chars "<h3>"]

def IFIS.boundaries : List PyStr :=
  [chars "<br/>", chars "<h3>", chars "=</span>", chars "<br />"]

/-- `BOM.get_metar_info` (lines 163-180): for each regex match over the
response markup, record the raw `METAR` group under the upper-cased
`CODE` group (last match wins). -/
def BOM.get_metar_info (text : PyStr) : List (PyStr × PyStr) :=
  (finditer BOM.boundaries text).foldl
    (fun ms m => dictInsert ms (upper m.1) m.2) []

/-- `IFIS.get_metar_info` (lines 203-220): the same extraction with the
extended boundary alternation, over the authenticated response markup. -/
def IFIS.get_metar_info (text : PyStr) : List (PyStr × PyStr) :=
  (finditer IFIS.boundaries text).foldl
    (fun ms m => dictInsert ms (upper m.1) m.2) []

theorem tryMatchAt_shape (bnds : List PyStr) (s code metar after : PyStr)
    (h : tryMatchAt bnds s = some (code, metar, after)) :
    code.length = 4 ∧ metar.take 4 = code := by
  unfold tryMatchAt at h
  split at h
  · simp at h
  · split at h
    · rename_i s1 hcond
      split at h
      · simp at h
      · rename_i t r heq
        simp only [Option.some.injEq, Prod.mk.injEq] at h
        obtain ⟨hc, hm, _⟩ := h
        subst hc
        subst hm
        refine ⟨hcond.1, ?_⟩
        rw [List.take_append_of_le_length (by omega)]
        exact List.take_of_length_le (by omega)
    · simp at h

theorem finditerGo_shape (bnds : List PyStr) :
    ∀ (fuel : Nat) (s : PyStr) (p : PyStr × PyStr),
      p ∈ finditerGo bnds fuel s → p.1.length = 4 ∧ p.2.take 4 = p.1 := by
  intro fuel
  induction fuel with
  | zero => intro s p hp; simp [finditerGo] at hp
  | succ f ih =>
    intro s p hp
    match s with
    | [] => simp [finditerGo] at hp
    | c :: rest =>
      rw [finditerGo] at hp
      split at hp
      · rename_i code metar after htm
        rcases List.mem_cons.mp hp with h | h
        · subst h
          exact tryMatchAt_shape bnds (c :: rest) code metar after htm
        · exact ih after p h
      · exact ih rest p hp

theorem fold_dictInsert_prop {V : Type} (P : PyStr × V → Prop) :
    ∀ (xs acc : List (PyStr × V)),
      (∀ p ∈ acc, P p) →
      (∀ m ∈ xs, P (upper m.1, m.2)) →
      ∀ p ∈ xs.foldl (fun ms m => dictInsert ms (upper m.1) m.2) acc, P p := by
  intro xs
  induction xs with
  | nil => intro acc hacc _ p hp; exact hacc p hp
  | cons m rest ih =>
    intro acc hacc hxs p hp
    simp only [List.foldl_cons] at hp
    refine ih _ ?_ (fun q hq => hxs q (by simp [hq])) p hp
    intro q hq
    rcases mem_dictInsert _ _ _ q hq with h | h
    · rw [h]
      exact hxs m (by simp)
    · exact hacc q h

/-- C10: every record of a mapping returned by the HTML-scrape or the
authenticated-scrape adapter has a `raw_text` beginning with a 4-character
code whose upper-casing is the record's key, so the key is always
recoverable from the start of the raw text. -/
theorem claim_C10_scrape_key_recoverable (text : PyStr) :
    (∀ p ∈ BOM.get_metar_info text,
      (p.2.take 4).length = 4 ∧ upper (p.2.take 4) = p.1) ∧
    (∀ p ∈ IFIS.get_metar_info text,
      (p.2.take 4).length = 4 ∧ upper (p.2.take 4) = p.1) := by
  constructor
  · intro p hp
    refine fold_dictInsert_prop
      (fun q => (q.2.take 4).length = 4 ∧ upper (q.2.take 4) = q.1)
      (finditer BOM.boundaries text) [] (by simp) ?_ p hp
    intro m hm
    obtain ⟨hlen, htake⟩ := finditerGo_shape BOM.boundaries text.length text m hm
    exact ⟨by rw [htake]; exact hlen, by rw [htake]⟩
  · intro p hp
    refine fold_dictInsert_prop
      (fun q => (q.2.take 4).length = 4 ∧ upper (q.2.take 4) = q.1)
      (finditer IFIS.boundaries text) [] (by simp) ?_ p hp
    intro m hm
    obtain ⟨hlen, htake⟩ := finditerGo_shape IFIS.boundaries text.length text m hm
    exact ⟨by rw [htake]; exact hlen, by rw [htake]⟩

/-- Witness for C10 on the markup `METAR YSSY 221856Z 10SM<br />`, which
both adapters extract as the mapping `YSSY ↦ YSSY 221856Z 10SM`. -/
theorem claim_C10_scrape_key_recoverable_witness :
    ((∀ p ∈ BOM.get_metar_info (chars "METAR YSSY 221856Z 10SM<br />"),
      (p.2.take 4).length = 4 ∧ upper (p.2.take 4) = p.1) ∧
    (∀ p ∈ IFIS.get_metar_info (chars "METAR YSSY 221856Z 10SM<br />"),
      (p.2.take 4).length = 4 ∧ upper (p.2.take 4) = p.1)) ∧
    BOM.get_metar_info (chars "METAR YSSY 221856Z 10SM<br />") =
      [(chars "YSSY", chars "YSSY 221856Z 10SM")] ∧
    IFIS.get_metar_info (chars "METAR YSSY 221856Z 10SM<br />") =
      [(chars "YSSY", chars "YSSY 221856Z 10SM")] :=
  ⟨claim_C10_scrape_key_recoverable (chars "METAR YSSY 221856Z 10SM<br />"),
    by decide, by decide⟩


/-- Outcome of one attempt of the body of `METARSource._query` (lines
27-36): a successful 2xx response, a non-2xx status (which
`response.raise_for_status()` turns into an exception), or a
transport-level failure (timeout, connection error); the bare `raise` of
the `except` block re-raises either exception out of the attempt. -/
inductive AttemptOutcome where
  | ok : PyStr → AttemptOutcome
  | httpError : AttemptOutcome
  | transportError : AttemptOutcome
deriving DecidableEq

/-- Whether the attempt raises: both error kinds are re-raised by `_query`
and hence count as retryable failures for the decorator. -/
def AttemptOutcome.raises : AttemptOutcome → Bool
  | .ok _ => false
  | .httpError => true
  | .transportError => true

/-- Modelled from the spec: the semantics of the `retrying` decorator
(`@retry(wait_exponential_multiplier=1000, wait_exponential_max=10000,
stop_max_attempt_number=10)`, lines 24-26).  The `retrying` library is an
external dependency whose source is not in this repository; following the
spec's wording, the wait after the `k`-th failed attempt (`k ≥ 1`) is
`min(multiplier * 2 ^ (k - 1), maxWait)` milliseconds — 1 s, 2 s, 4 s,
8 s, then capped at 10 s — and the call stops after `stop` total attempts,
re-raising the last failure (the spec's `SourceUnavailable`). -/
def waitAfter (multiplier maxWait k : Nat) : Nat :=
  min (multiplier * 2 ^ (k - 1)) maxWait

/-- One retry-decorated call: `outcome k` is the result of the `k`-th
attempt (1-based); returns whether the call ultimately succeeded, the
number of attempts made, and the list of waits (ms) slept between
attempts. -/
def retryRun (outcome : Nat → AttemptOutcome) (multiplier maxWait : Nat) :
    Nat → Nat → Bool × Nat × List Nat
  | _, 0 => (false, 0, [])
  | k, remaining + 1 =>
    if (outcome k).raises = false then (true, 1, [])
    else if remaining = 0 then (false, 1, [])
    else
      let r := retryRun outcome multiplier maxWait (k + 1) remaining
      (r.1, r.2.1 + 1, waitAfter multiplier maxWait k :: r.2.2)

/-- `METARSource._query` under the decorator parameters of lines 24-26. -/
def query (outcome : Nat → AttemptOutcome) : Bool × Nat × List Nat :=
  retryRun outcome 1000 10000 1 10

theorem retryRun_attempts_pos (outcome : Nat → AttemptOutcome)
    (m M k remaining : Nat) (h : 0 < remaining) :
    0 < (retryRun outcome m M k remaining).2.1 := by
  match remaining with
  | 0 => omega
  | rem + 1 =>
    rw [retryRun]
    by_cases h1 : (outcome k).raises = false
    · rw [if_pos h1]
      exact Nat.one_pos
    · rw [if_neg h1]
      by_cases h2 : rem = 0
      · rw [if_pos h2]
        exact Nat.one_pos
      · rw [if_neg h2]
        simp

theorem retryRun_waits (outcome : Nat → AttemptOutcome) (m M : Nat) :
    ∀ (remaining k : Nat),
      (retryRun outcome m M k remaining).2.2 =
        (List.range ((retryRun outcome m M k remaining).2.1 - 1)).map
          (fun i => waitAfter m M (k + i)) := by
  intro remaining
  induction remaining with
  | zero => intro k; rw [retryRun]; simp
  | succ rem ih =>
    intro k
    rw [retryRun]
    by_cases h1 : (outcome k).raises = false
    · rw [if_pos h1]
      simp
    · rw [if_neg h1]
      by_cases h2 : rem = 0
      · rw [if_pos h2]
        simp
      · rw [if_neg h2]
        simp only []
        have hpos := retryRun_attempts_pos outcome m M (k + 1) rem (by omega)
        rcases ha : (retryRun outcome m M (k + 1) rem).2.1 with _ | a
        · omega
        · have hw := ih (k + 1)
          rw [ha] at hw
          rw [hw]
          rw [Nat.add_sub_cancel, Nat.succ_sub_one, List.range_succ_eq_map]
          simp only [List.map_cons, List.map_map, Nat.add_zero]
          apply congrArg (List.cons (waitAfter m M k))
          apply List.map_congr_left
          intro i _
          show waitAfter m M (k + 1 + i) = waitAfter m M (k + (i + 1))
          rw [show k + 1 + i = k + (i + 1) from by omega]

theorem retryRun_succeeds (outcome : Nat → AttemptOutcome) (m M : Nat) :
    ∀ (K k remaining : Nat), K < remaining →
      (∀ j, k ≤ j → j < k + K → (outcome j).raises = true) →
      (outcome (k + K)).raises = false →
      (retryRun outcome m M k remaining).1 = true ∧
      (retryRun outcome m M k remaining).2.1 = K + 1 := by
  intro K
  induction K with
  | zero =>
    intro k remaining hK _ hok
    rw [Nat.add_zero] at hok
    match remaining with
    | 0 => omega
    | rem + 1 =>
      rw [retryRun, if_pos hok]
      exact ⟨rfl, rfl⟩
  | succ K ih =>
    intro k remaining hK hfail hok
    match remaining with
    | 0 => omega
    | rem + 1 =>
      have hk : (outcome k).raises = true := hfail k le_rfl (by omega)
      rw [retryRun]
      rw [if_neg (show ¬(outcome k).raises = false from by simp [hk])]
      rw [if_neg (show ¬rem = 0 from by omega)]
      have hrec := ih (k + 1) rem (by omega)
        (fun j h1 h2 => hfail j (by omega) (by omega))
        (by rw [show k + 1 + K = k + (K + 1) from by omega]; exact hok)
      simp only []
      exact ⟨hrec.1, by rw [hrec.2]⟩

theorem retryRun_all_fail (outcome : Nat → AttemptOutcome) (m M : Nat)
    (hall : ∀ j, (outcome j).raises = true) :
    ∀ (remaining k : Nat),
      (retryRun outcome m M k remaining).1 = false ∧
      (retryRun outcome m M k remaining).2.1 = remaining := by
  intro remaining
  induction remaining with
  | zero => intro k; rw [retryRun]; exact ⟨rfl, rfl⟩
  | succ rem ih =>
    intro k
    rw [retryRun]
    rw [if_neg (show ¬(outcome k).raises = false from by simp [hall k])]
    by_cases h2 : rem = 0
    · rw [if_pos h2]
      exact ⟨rfl, by rw [h2]⟩
    · rw [if_neg h2]
      have hrec := ih (k + 1)
      simp only []
      exact ⟨hrec.1, by rw [hrec.2]⟩

/-- C3: for the Retrying HTTP Fetcher (spec-modelled decorator semantics,
decorator parameters from lines 24-26): a non-2xx status and a transport
failure both count as retryable; the waits between attempts follow the
doubling schedule `min(1000 * 2 ^ i, 10000)` ms, i.e. 1 s, 2 s, 4 s, 8 s,
capped at 10 s; if the wrapped operation fails `K < 10` times and then
succeeds, the call succeeds after exactly `K + 1` attempts; if every
attempt fails, exactly 10 attempts occur and the call ends in the terminal
failure that propagates to the caller. -/
theorem claim_C3_retry :
    (AttemptOutcome.httpError.raises = true ∧
      AttemptOutcome.transportError.raises = true) ∧
    (∀ outcome, (query outcome).2.2 =
      (List.range ((query outcome).2.1 - 1)).map
        (fun i => min (1000 * 2 ^ i) 10000)) ∧
    (∀ outcome K, K < 10 →
      (∀ j, 1 ≤ j → j < 1 + K → (outcome j).raises = true) →
      (outcome (1 + K)).raises = false →
      (query outcome).1 = true ∧ (query outcome).2.1 = K + 1) ∧
    (∀ outcome, (∀ j, (outcome j).raises = true) →
      (query outcome).1 = false ∧ (query outcome).2.1 = 10) := by
  refine ⟨⟨rfl, rfl⟩, ?_, ?_, ?_⟩
  · intro outcome
    rw [query, retryRun_waits outcome 1000 10000 10 1]
    apply List.map_congr_left
    intro i _
    show waitAfter 1000 10000 (1 + i) = min (1000 * 2 ^ i) 10000
    rw [waitAfter, Nat.add_sub_cancel_left]
  · intro outcome K hK hfail hok
    exact retryRun_succeeds outcome 1000 10000 K 1 10 hK hfail hok
  · intro outcome hall
    exact retryRun_all_fail outcome 1000 10000 hall 10 1

/-- Witness for C3: an endpoint failing twice with a transport error and
then succeeding yields success on the third attempt after waiting 1 s then
2 s; an endpoint that always returns a non-2xx status exhausts exactly 10
attempts with the capped doubling schedule and fails terminally. -/
theorem claim_C3_retry_witness :
    (query (fun k => if k ≤ 2 then .transportError else .ok [])).1 = true ∧
    (query (fun k => if k ≤ 2 then .transportError else .ok [])).2.1 = 3 ∧
    (query (fun k => if k ≤ 2 then .transportError else .ok [])).2.2 =
      [1000, 2000] ∧
    (query (fun _ => .httpError)).1 = false ∧
    (query (fun _ => .httpError)).2.1 = 10 ∧
    (query (fun _ => .httpError)).2.2 =
      [1000, 2000, 4000, 8000, 10000, 10000, 10000, 10000, 10000] := by
  have h3 := claim_C3_retry.2.2.1 (fun k => if k ≤ 2 then .transportError else .ok [])
    2 (by omega)
    (fun j h1 h2 => by
      have hj : j = 1 ∨ j = 2 := by omega
      rcases hj with rfl | rfl <;> rfl)
    (by rfl)
  have h4 := claim_C3_retry.2.2.2 (fun _ => AttemptOutcome.httpError)
    (fun _ => rfl)
  exact ⟨h3.1, h3.2, by decide, h4.1, h4.2, by decide⟩

end RpiMetar
